import Mathlib

/-!
Verification development for the retrieval core of the Medical Q&A Bot
(`backend/vectorDB.py`).

The module is embedded shallowly:
* embedding vectors (numpy float32 rows) are modelled as lists of integers,
  which keeps the squared-L2 ranking arithmetic exact and decidable;
* the external Azure OpenAI embedding provider (`generate_embeddings`) is an
  opaque parameter `embed : String → Except E Vec` — `.error` models the
  provider call raising an exception;
* the knowledge-base directory is `Option (List (String × String))`:
  `none` models an absent directory, otherwise the `os.listdir` listing as
  (filename, file contents) pairs;
* the module globals `embedding_dimension`, `index`,
  `knowledge_base_documents` are threaded explicitly as a `GlobalState`;
* Python exceptions are `Except (PyError E)` results;
* `faiss.IndexFlatL2` is modelled from its documented behaviour: exact
  k-nearest-neighbour search by squared Euclidean distance, results in
  ascending distance order, padded with label `-1` when fewer than `k`
  vectors are stored.
-/

/-- Embedding vectors: one row of a numpy float32 matrix, with exact integer
components standing in for the floats. -/
abbrev Vec := List Int

/-- Squared Euclidean (L2) distance, the metric of `faiss.IndexFlatL2`. -/
def sqL2 (u v : Vec) : Int := (List.zipWith (fun a b => (a - b) * (a - b)) u v).sum

/-- Relation comparing (distance, label) pairs by distance, used to order
search results. -/
def distLE (a b : Int × Int) : Prop := a.1 ≤ b.1

instance : DecidableRel distLE := fun a b => inferInstanceAs (Decidable (a.1 ≤ b.1))

instance : IsTotal (Int × Int) distLE := ⟨fun a b => Int.le_total a.1 b.1⟩

instance : IsTrans (Int × Int) distLE := ⟨fun _ _ _ h1 h2 => le_trans h1 h2⟩

/-- Model of a `faiss.IndexFlatL2`: the fixed dimension and the stored
vectors in insertion order. -/
structure IndexFlatL2 where
  d : Nat
  vectors : List Vec
deriving DecidableEq

/-- `index.ntotal`: the number of stored vectors. -/
def IndexFlatL2.ntotal (idx : IndexFlatL2) : Nat := idx.vectors.length

/-- `index.add(xs)`: faiss requires every row to have the index dimension;
a violation raises, modelled as `none`. -/
def IndexFlatL2.add (idx : IndexFlatL2) (rows : List Vec) : Option IndexFlatL2 :=
  if rows.all (fun r => r.length == idx.d) then
    some { idx with vectors := idx.vectors ++ rows }
  else none

/-- `index.search(q, k)` of `faiss.IndexFlatL2` (exact search, modelled from
the faiss documentation): the labels of the `k` stored vectors nearest to
`q` by squared L2 distance, in ascending distance order; when fewer than `k`
vectors are stored the result is padded with the label `-1`. faiss asserts
that the query dimension matches `d`; a mismatch is modelled as `none`. -/
def IndexFlatL2.search (idx : IndexFlatL2) (q : Vec) (k : Nat) : Option (List Int) :=
  if q.length ≠ idx.d then none
  else
    let scored := (List.range idx.vectors.length).map
      (fun i => (sqL2 q (idx.vectors.getD i []), (i : Int)))
    let sorted := scored.insertionSort distLE
    some ((sorted.map Prod.snd).take k ++ List.replicate (k - idx.vectors.length) (-1))

/-- The module-level globals of vectorDB.py: `embedding_dimension` and
`index` start as `None`; `knowledge_base_documents` is assigned on line 119
(the empty list stands for "not yet assigned"). -/
structure GlobalState where
  embedding_dimension : Option Nat
  index : Option IndexFlatL2
  knowledge_base_documents : List (String × String)
deriving DecidableEq

/-- The globals before the module body runs. -/
def initState : GlobalState := ⟨none, none, []⟩

/-- Python-level failures surfaced by the module: `valueError` is the
explicit `raise ValueError`, `provider e` an exception escaping the
embedding-provider call, `numpyError`/`faissError` exceptions raised by
numpy `vstack` / faiss on malformed input, `attributeError` an attribute
access on `None`, and `indexError` a list index out of range. -/
inductive PyError (E : Type) where
  | valueError (msg : String)
  | provider (e : E)
  | numpyError
  | faissError
  | attributeError
  | indexError
deriving DecidableEq

instance {ε α : Type} [DecidableEq ε] [DecidableEq α] : DecidableEq (Except ε α)
  | .ok x, .ok y =>
    if h : x = y then .isTrue (by rw [h]) else .isFalse (by simp [h])
  | .ok _, .error _ => .isFalse (by simp)
  | .error _, .ok _ => .isFalse (by simp)
  | .error e, .error f =>
    if h : e = f then .isTrue (by rw [h]) else .isFalse (by simp [h])

/-- Python `s.endswith(suffix)`, on the character lists of the strings. -/
def pyEndsWith (s suffix : String) : Bool := suffix.data.isSuffixOf s.data

/-- Python `s.strip()`: drop whitespace from both ends (Lean's
`Char.isWhitespace` stands in for Python's whitespace class). -/
def pyStrip (s : String) : List Char :=
  ((s.data.dropWhile Char.isWhitespace).reverse.dropWhile Char.isWhitespace).reverse

/-- Line 137 of vectorDB.py: `not query or query.strip() == ""`.
A `none` query models `query is None` (falsy); an empty string is falsy;
otherwise the stripped text must be empty. -/
def isBlankQuery : Option String → Bool
  | none => true
  | some q => q.data.isEmpty || (pyStrip q).isEmpty

/-- `np.vstack(rows)`: stacks the 1×N rows into one matrix; raises when the
list is empty or the row widths disagree, modelled as `none`. -/
def vstack (rows : List Vec) : Option (List Vec) :=
  match rows with
  | [] => none
  | r :: rs => if rs.all (fun x => x.length == r.length) then some (r :: rs) else none

/-- Lines 107-110 of vectorDB.py: if `embedding_dimension is None`, record
the embedding's length as the dimension and allocate an empty faiss index
of that dimension; otherwise leave the globals as they are. -/
def updateDim (st : GlobalState) (v : Vec) : GlobalState :=
  match st.embedding_dimension with
  | none => { st with embedding_dimension := some v.length,
                      index := some { d := v.length, vectors := [] } }
  | some _ => st

/-- The embedding loop of `load_knowledge_base` (vectorDB.py lines 102-112):
embed each document's content in order; on the first embedding record the
dimension and allocate the faiss index; collect the embeddings. -/
def embedLoop {E : Type} (embed : String → Except E Vec) (st : GlobalState) :
    List (String × String) → Except (PyError E) (GlobalState × List Vec)
  | [] => .ok (st, [])
  | doc :: rest =>
    match embed doc.2 with
    | .error e => .error (.provider e)
    | .ok v =>
      match embedLoop embed (updateDim st v) rest with
      | .error e => .error e
      | .ok (st2, vs) => .ok (st2, v :: vs)

/-- `load_knowledge_base` (vectorDB.py lines 59-116): filter the listing to
`.html` files, fail when the directory is absent or no such file exists,
embed every document, stack the embeddings and add them to the index.
Exception paths discard the partially updated globals, which no claim
observes. -/
def load_knowledge_base {E : Type} (embed : String → Except E Vec)
    (directory : Option (List (String × String))) (st : GlobalState) :
    Except (PyError E) (GlobalState × List (String × String)) :=
  match directory with
  | none => .error (.valueError "Knowledge base directory not found: ./phase2_data")
  | some listing =>
    let html_files := listing.filter (fun f => pyEndsWith f.1 ".html")
    if html_files.isEmpty then .error (.valueError "No HTML files found in ./phase2_data")
    else
      match embedLoop embed st html_files with
      | .error e => .error e
      | .ok (st1, embeddings) =>
        match vstack embeddings with
        | none => .error .numpyError
        | some m =>
          match st1.index with
          | none => .error .attributeError
          | some idx =>
            match idx.add m with
            | none => .error .faissError
            | some idx2 => .ok ({ st1 with index := some idx2 }, html_files)

/-- Line 119 of vectorDB.py: `knowledge_base_documents = load_knowledge_base()`
runs at import; a failure aborts the module import (and with it the backend
service). -/
def module_init {E : Type} (embed : String → Except E Vec)
    (directory : Option (List (String × String))) : Except (PyError E) GlobalState :=
  match load_knowledge_base embed directory initState with
  | .error e => .error e
  | .ok (st, documents) => .ok { st with knowledge_base_documents := documents }

/-- Python list indexing `l[i]`: a negative index counts from the end of the
list; `none` models an `IndexError`. -/
def pyGet {α : Type} (l : List α) (i : Int) : Option α :=
  if 0 ≤ i then l[i.toNat]?
  else if (-i).toNat ≤ l.length then l[l.length - (-i).toNat]? else none

/-- The neighbour-mapping loop of `get_knowledge_base` (vectorDB.py lines
148-151): keep each returned position `idx` satisfying
`idx < len(knowledge_base_documents)`, reading `knowledge_base_documents[idx]`
with Python indexing, so a negative position counts from the end. -/
def closestDocuments {E : Type} (docs : List (String × String)) :
    List Int → Except (PyError E) (List (String × String))
  | [] => .ok []
  | p :: ps =>
    if p < (docs.length : Int) then
      match pyGet docs p with
      | none => .error .indexError
      | some d =>
        match closestDocuments docs ps with
        | .error e => .error e
        | .ok l => .ok (d :: l)
    else closestDocuments docs ps

/-- The fallback returned for an empty or blank query (line 138). -/
def fallback_no_question : String × String :=
  ("no_document.html", "Please ask a specific question about medical services.")

/-- The fallback returned when no documents survive the position filter
(line 155). -/
def fallback_no_info : String × String :=
  ("no_document.html", "I couldn\x27t find information related to your question in my knowledge base.")

/-- Lines 148-155 of vectorDB.py: map the neighbour positions to documents
and fall back to the "no relevant information" entry when nothing survives. -/
def closest_or_fallback {E : Type} (docs : List (String × String))
    (positions : List Int) : Except (PyError E) (List (String × String)) :=
  match closestDocuments docs positions with
  | .error e => .error e
  | .ok [] => .ok [fallback_no_info]
  | .ok l => .ok l

/-- The `k` passed to `index.search` on line 145. -/
def search_k : Nat := 4

/-- `get_knowledge_base` (vectorDB.py lines 121-157). The result pairs the
outcome with the final module globals (the function reads but never writes
them) and with the number of embedding-provider calls made. -/
def get_knowledge_base {E : Type} (embed : String → Except E Vec)
    (st : GlobalState) (query : Option String) :
    Except (PyError E) (List (String × String)) × GlobalState × Nat :=
  if isBlankQuery query then (.ok [fallback_no_question], st, 0)
  else
    (match query with
     | none => .ok [fallback_no_question]
     | some q =>
       match embed q with
       | .error e => .error (.provider e)
       | .ok query_embedding =>
         match st.index with
         | none => .error .attributeError
         | some idx =>
           match idx.search query_embedding search_k with
           | none => .error .faissError
           | some positions =>
             closest_or_fallback st.knowledge_base_documents positions,
     st, 1)

/-- Distance from the query embedding to a document's embedding, used to
state the ranking property (the `.error` branch is irrelevant for documents
whose embedding succeeded during build). -/
def distToQuery {E : Type} (embed : String → Except E Vec) (qv : Vec)
    (doc : String × String) : Int :=
  match embed doc.2 with
  | .ok v => sqL2 qv v
  | .error _ => 0

/-- A concrete embedding provider used to evaluate the model: each text maps
to the one-dimensional vector holding its length. -/
def embedCX : String → Except Unit Vec := fun s => .ok [(s.length : Int)]

/-- A two-document knowledge-base directory listing. -/
def dirCX : List (String × String) := [("a.html", "x"), ("b.html", "xx")]

/-- The module globals produced by initialisation over `dirCX` with
`embedCX` (checked against `module_init` below). -/
def stCX : GlobalState := ⟨some 1, some ⟨1, [[1], [2]]⟩, dirCX⟩

/-- A four-document knowledge-base directory listing. -/
def dirW4 : List (String × String) :=
  [("a.html", "x"), ("b.html", "xx"), ("c.html", "xxx"), ("d.html", "xxxx")]

/-- The module globals produced by initialisation over `dirW4` with
`embedCX`. -/
def stW4 : GlobalState := ⟨some 1, some ⟨1, [[1], [2], [3], [4]]⟩, dirW4⟩

/-- Python indexing at a non-negative position is plain list lookup. -/
theorem pyGet_nonneg {α : Type} (l : List α) (p : Int) (h0 : 0 ≤ p) :
    pyGet l p = l[p.toNat]? := by
  unfold pyGet
  rw [if_pos h0]

/-- Python indexing at -1 returns the last element of a non-empty list. -/
theorem pyGet_neg_one {α : Type} (l : List α) (h : l ≠ []) :
    pyGet l (-1) = some (l.getLast h) := by
  have hl : 0 < l.length := List.length_pos.mpr h
  unfold pyGet
  rw [if_neg (by decide), if_pos (by simp; omega)]
  rw [List.getElem?_eq_getElem (by simp; omega), List.getLast_eq_getElem]
  simp

/-- A position at or above the list length is skipped by the neighbour
loop. -/
theorem closestDocuments_skip {E : Type} (docs : List (String × String))
    (p : Int) (ps : List Int) (h : (docs.length : Int) ≤ p) :
    closestDocuments (E := E) docs (p :: ps) = closestDocuments docs ps := by
  conv_lhs => rw [closestDocuments]
  rw [if_neg (not_lt.mpr h)]

/-- When every position is at or above the list length, the neighbour loop
returns the empty list. -/
theorem closestDocuments_all_out {E : Type} (docs : List (String × String)) :
    ∀ ps : List Int, (∀ p ∈ ps, (docs.length : Int) ≤ p) →
      closestDocuments (E := E) docs ps = .ok []
  | [], _ => rfl
  | p :: ps, h => by
    rw [closestDocuments_skip docs p ps (h p (List.mem_cons_self p ps))]
    exact closestDocuments_all_out docs ps fun q hq => h q (List.mem_cons_of_mem p hq)

/-- The neighbour loop never returns more entries than it was given
positions. -/
theorem closestDocuments_length_le {E : Type} (docs : List (String × String)) :
    ∀ (ps : List Int) (l : List (String × String)),
      closestDocuments (E := E) docs ps = .ok l → l.length ≤ ps.length := by
  intro ps
  induction ps with
  | nil =>
    intro l h
    unfold closestDocuments at h
    cases h
    simp
  | cons p ps ih =>
    intro l h
    unfold closestDocuments at h
    by_cases hp : p < (docs.length : Int)
    · rw [if_pos hp] at h
      cases hg : pyGet docs p with
      | none => rw [hg] at h; cases h
      | some d =>
        rw [hg] at h
        cases hr : closestDocuments (E := E) docs ps with
        | error e => rw [hr] at h; cases h
        | ok l2 =>
          rw [hr] at h
          cases h
          simpa using Nat.succ_le_succ (ih l2 hr)
    · rw [if_neg hp] at h
      exact le_trans (ih l h) (Nat.le_succ _)

/-- When every position is in range, the neighbour loop returns exactly the
documents at those positions, in position order. -/
theorem closestDocuments_all_in {E : Type} (docs : List (String × String)) :
    ∀ ps : List Int, (∀ p ∈ ps, 0 ≤ p ∧ p.toNat < docs.length) →
      closestDocuments (E := E) docs ps =
        .ok (ps.map fun p => docs.getD p.toNat ("", "")) := by
  intro ps
  induction ps with
  | nil => intro _; rfl
  | cons p ps ih =>
    intro h
    obtain ⟨h0, hlt⟩ := h p (List.mem_cons_self p ps)
    unfold closestDocuments
    rw [if_pos (by omega)]
    rw [pyGet_nonneg docs p h0, List.getElem?_eq_getElem hlt]
    rw [ih fun q hq => h q (List.mem_cons_of_mem p hq)]
    simp [List.getD_eq_getElem?_getD, List.getElem?_eq_getElem hlt]

/-- With every position out of range, lines 153-155 return the "no relevant
information" fallback. -/
theorem closest_or_fallback_all_out {E : Type} (docs : List (String × String))
    (ps : List Int) (h : ∀ p ∈ ps, (docs.length : Int) ≤ p) :
    closest_or_fallback (E := E) docs ps = .ok [fallback_no_info] := by
  unfold closest_or_fallback
  rw [closestDocuments_all_out docs ps h]

/-- C1 counterexample: over a successfully built two-document index the
faiss search pads its k = 4 result with the out-of-range position -1, and
`get_knowledge_base` does not ignore it: each -1 passes the
`idx < len(knowledge_base_documents)` check and contributes the last
document again, so the result has four entries although only two in-range
positions were returned. -/
theorem c1_counterexample :
    module_init embedCX (some dirCX) = .ok stCX ∧
    (∃ idx, stCX.index = some idx ∧
      idx.search [3] search_k = some [1, 0, -1, -1] ∧
      ¬ (0 ≤ (-1 : Int) ∧ (-1 : Int) < (dirCX.length : Int))) ∧
    (get_knowledge_base embedCX stCX (some "xxx")).1 =
      .ok [("b.html", "xx"), ("a.html", "x"), ("b.html", "xx"), ("b.html", "xx")] := by
  exact ⟨by decide, ⟨⟨1, [[1], [2]]⟩, by decide, by decide, by decide⟩, by decide⟩

/-- C1 amended: positions at or above `len(documentList)` are silently
ignored, without an exception; the position -1 — the padding value faiss
returns when the index holds fewer than 4 vectors — is NOT ignored: it
selects the last document of the list by Python negative indexing; and if
every returned position is at or above `len(documentList)`, the "no
relevant information" fallback is returned. -/
theorem c1_out_of_range_amended (E : Type) :
    (∀ (docs : List (String × String)) (p : Int) (ps : List Int),
      (docs.length : Int) ≤ p →
      closestDocuments (E := E) docs (p :: ps) = closestDocuments docs ps) ∧
    (∀ (docs : List (String × String)) (ps : List Int) (hne : docs ≠ []),
      closestDocuments (E := E) docs ((-1) :: ps) =
        (closestDocuments docs ps).map fun l => docs.getLast hne :: l) ∧
    (∀ (docs : List (String × String)) (ps : List Int),
      (∀ p ∈ ps, (docs.length : Int) ≤ p) →
      closest_or_fallback (E := E) docs ps = .ok [fallback_no_info]) := by
  refine ⟨fun docs p ps h => closestDocuments_skip docs p ps h, ?_,
    fun docs ps h => closest_or_fallback_all_out docs ps h⟩
  intro docs ps hne
  have hl : 0 < docs.length := List.length_pos.mpr hne
  conv_lhs => rw [closestDocuments]
  rw [if_pos (by omega)]
  rw [pyGet_neg_one docs hne]
  cases h : closestDocuments (E := E) docs ps with
  | error e => simp [Except.map, h]
  | ok l => simp [Except.map, h]

/-- C1 amended witness: a concrete high position is skipped, a concrete -1
yields the last document, and all-high positions yield the fallback. -/
theorem c1_out_of_range_amended_witness :
    closestDocuments (E := Unit) dirCX [5, 0] = closestDocuments dirCX [0] ∧
    closestDocuments (E := Unit) dirCX [-1] =
      (closestDocuments (E := Unit) dirCX []).map
        (fun l => dirCX.getLast (by decide) :: l) ∧
    closest_or_fallback (E := Unit) dirCX [2, 7] = .ok [fallback_no_info] :=
  ⟨(c1_out_of_range_amended Unit).1 dirCX 5 [0] (by decide),
   (c1_out_of_range_amended Unit).2.1 dirCX [] (by decide),
   (c1_out_of_range_amended Unit).2.2 dirCX [2, 7] (by decide)⟩

/-- C2, evaluated at the failing input: a knowledge base of two documents
(fewer than 4) and a non-empty query. `get_knowledge_base` returns four
entries — more than `len(documentList) = 2` — because the two -1 padding
positions pass the `idx < len(...)` check and re-append the last document. -/
theorem c2_fewer_than_four_docs_code_eval :
    module_init embedCX (some dirCX) = .ok stCX ∧
    stCX.knowledge_base_documents.length = 2 ∧
    (get_knowledge_base embedCX stCX (some "xxx")).1 =
      .ok [("b.html", "xx"), ("a.html", "x"), ("b.html", "xx"), ("b.html", "xx")] ∧
    ¬ ([("b.html", "xx"), ("a.html", "x"), ("b.html", "xx"), ("b.html", "xx")].length ≤
        stCX.knowledge_base_documents.length) := by
  exact ⟨by decide, by decide, by decide, by decide⟩

/-- C3: for a `None`, empty, or whitespace-only query, `get_knowledge_base`
returns exactly the single "no specific question" fallback entry, leaves
the globals unchanged, and makes zero calls to the embedding provider,
whichever provider is supplied. -/
theorem c3_blank_query_no_embedding_call (E : Type) (embed : String → Except E Vec)
    (st : GlobalState) (q : Option String)
    (h : q = none ∨ ∃ s, q = some s ∧ (pyStrip s).isEmpty = true) :
    get_knowledge_base embed st q = (.ok [fallback_no_question], st, 0) := by
  have hb : isBlankQuery q = true := by
    rcases h with rfl | ⟨s, rfl, hs⟩
    · rfl
    · simp [isBlankQuery, hs]
  unfold get_knowledge_base
  rw [if_pos hb]

/-- C3 witness at the whitespace query `"   "` with a provider that always
fails: the call still returns the fallback and reports zero provider
calls. -/
theorem c3_blank_query_no_embedding_call_witness :
    get_knowledge_base (fun _ => Except.error ()) stCX (some "   ") =
      (.ok [fallback_no_question], stCX, 0) :=
  c3_blank_query_no_embedding_call Unit (fun _ => Except.error ()) stCX (some "   ")
    (Or.inr ⟨"   ", rfl, by decide⟩)

/-- C4: with an absent document directory, or one containing no `.html`
file, `load_knowledge_base` raises a ValueError and module initialisation
fails, so no index is built and the service cannot serve queries. -/
theorem c4_empty_knowledge_base_fatal (E : Type) (embed : String → Except E Vec)
    (st : GlobalState) (directory : Option (List (String × String)))
    (h : directory = none ∨ ∃ listing, directory = some listing ∧
      listing.filter (fun f => pyEndsWith f.1 ".html") = []) :
    (∃ msg, load_knowledge_base embed directory st = .error (.valueError msg)) ∧
    (∃ msg, module_init embed directory = .error (.valueError msg)) := by
  rcases h with rfl | ⟨listing, rfl, hfilter⟩
  · exact ⟨⟨_, rfl⟩, ⟨_, rfl⟩⟩
  · have hload : ∀ st0 : GlobalState, load_knowledge_base embed (some listing) st0 =
        .error (.valueError "No HTML files found in ./phase2_data") := by
      intro st0
      simp [load_knowledge_base, hfilter]
    refine ⟨⟨_, hload st⟩, ⟨"No HTML files found in ./phase2_data", ?_⟩⟩
    simp [module_init, hload initState]

/-- C4 witness: a directory listing holding a single non-HTML file. -/
theorem c4_empty_knowledge_base_fatal_witness :
    (∃ msg, load_knowledge_base embedCX (some [("notes.txt", "x")]) initState =
      .error (.valueError msg)) ∧
    (∃ msg, module_init embedCX (some [("notes.txt", "x")]) =
      .error (.valueError msg)) :=
  c4_empty_knowledge_base_fatal Unit embedCX initState (some [("notes.txt", "x")])
    (Or.inr ⟨[("notes.txt", "x")], rfl, by decide⟩)

/-- C7: a provider failure during a query propagates unchanged to the
immediate caller of `get_knowledge_base`; no call, successful or failing,
changes the module globals (index, document list, recorded dimension); and
consequently a second call issued after any first call sees exactly the
same globals, so it behaves as if issued directly against that state. -/
theorem c7_provider_error_propagates_no_mutation (E : Type) :
    (∀ (embed : String → Except E Vec) (st : GlobalState) (s : String) (e : E),
      isBlankQuery (some s) = false → embed s = .error e →
      (get_knowledge_base embed st (some s)).1 = .error (.provider e)) ∧
    (∀ (embed : String → Except E Vec) (st : GlobalState) (q : Option String),
      (get_knowledge_base embed st q).2.1 = st) ∧
    (∀ (embed1 embed2 : String → Except E Vec) (st : GlobalState)
      (q1 q2 : Option String),
      get_knowledge_base embed2 (get_knowledge_base embed1 st q1).2.1 q2 =
        get_knowledge_base embed2 st q2) := by
  have hro : ∀ (embed : String → Except E Vec) (st : GlobalState) (q : Option String),
      (get_knowledge_base embed st q).2.1 = st := by
    intro embed st q
    unfold get_knowledge_base
    split <;> rfl
  refine ⟨?_, hro, fun embed1 embed2 st q1 q2 => by rw [hro]⟩
  intro embed st s e hb he
  unfold get_knowledge_base
  rw [if_neg (by simp [hb])]
  simp [he]

/-- C7 witness: a concrete failing provider against the two-document
globals propagates its error and leaves the globals untouched. -/
theorem c7_provider_error_propagates_no_mutation_witness :
    (get_knowledge_base (fun _ => Except.error ()) stCX (some "question")).1 =
      .error (.provider ()) ∧
    (get_knowledge_base (fun _ => Except.error ()) stCX (some "question")).2.1 = stCX :=
  ⟨(c7_provider_error_propagates_no_mutation Unit).1 (fun _ => Except.error ()) stCX
      "question" () (by decide) rfl,
   (c7_provider_error_propagates_no_mutation Unit).2.1 (fun _ => Except.error ()) stCX
      (some "question")⟩

/-- C10: both fallback entries carry the document name `no_document.html`
together with their exact message texts; the blank-query path returns
exactly the "no specific question" entry and the all-filtered path exactly
the "no relevant information" entry, so a consumer cannot tell a fallback
entry from a real corpus document by name alone. -/
theorem c10_fallbacks_share_name (E : Type) :
    fallback_no_question.1 = "no_document.html" ∧
    fallback_no_info.1 = "no_document.html" ∧
    fallback_no_question.2 = "Please ask a specific question about medical services." ∧
    fallback_no_info.2 =
      "I couldn\x27t find information related to your question in my knowledge base." ∧
    (∀ (embed : String → Except E Vec) (st : GlobalState) (q : Option String),
      isBlankQuery q = true →
      (get_knowledge_base embed st q).1 = .ok [fallback_no_question]) ∧
    (∀ (docs : List (String × String)) (ps : List Int),
      (∀ p ∈ ps, (docs.length : Int) ≤ p) →
      closest_or_fallback (E := E) docs ps = .ok [fallback_no_info]) := by
  refine ⟨rfl, rfl, rfl, rfl, ?_, fun docs ps h => closest_or_fallback_all_out docs ps h⟩
  intro embed st q hq
  unfold get_knowledge_base
  rw [if_pos hq]

/-- C10 witness: the empty query returns the "no specific question" entry;
all-out-of-range positions return the "no relevant information" entry. -/
theorem c10_fallbacks_share_name_witness :
    (get_knowledge_base embedCX stCX (some "")).1 = .ok [fallback_no_question] ∧
    closest_or_fallback (E := Unit) dirCX [2, 5] = .ok [fallback_no_info] :=
  ⟨(c10_fallbacks_share_name Unit).2.2.2.2.1 embedCX stCX (some "") (by decide),
   (c10_fallbacks_share_name Unit).2.2.2.2.2 dirCX [2, 5] (by decide)⟩

/-- `updateDim` is the identity once a dimension has been recorded. -/
theorem updateDim_some (st : GlobalState) (v : Vec) (d : Nat)
    (h : st.embedding_dimension = some d) : updateDim st v = st := by
  unfold updateDim
  rw [h]

/-- Once the dimension is recorded, the embedding loop leaves the globals
unchanged. -/
theorem embedLoop_state_const {E : Type} (embed : String → Except E Vec) (d : Nat) :
    ∀ (docs : List (String × String)) (st st2 : GlobalState) (vs : List Vec),
      st.embedding_dimension = some d →
      embedLoop embed st docs = .ok (st2, vs) → st2 = st := by
  intro docs
  induction docs with
  | nil =>
    intro st st2 vs _ h
    simp only [embedLoop, Except.ok.injEq, Prod.mk.injEq] at h
    exact h.1.symm
  | cons doc rest ih =>
    intro st st2 vs hd h
    simp only [embedLoop] at h
    split at h
    · simp at h
    · rename_i v he
      rw [updateDim_some st v d hd] at h
      split at h
      · simp at h
      · rename_i st3 vs3 hr
        simp only [Except.ok.injEq, Prod.mk.injEq] at h
        rw [← h.1]
        exact ih st st3 vs3 hd hr

/-- The embedding loop yields one embedding per document, in order: the
i-th embedding is the provider's output on the i-th document's content. -/
theorem embedLoop_ok_spec {E : Type} (embed : String → Except E Vec) :
    ∀ (docs : List (String × String)) (st st2 : GlobalState) (vs : List Vec),
      embedLoop embed st docs = .ok (st2, vs) →
      vs.length = docs.length ∧
      ∀ i, i < docs.length →
        embed (docs.getD i ("", "")).2 = .ok (vs.getD i []) := by
  intro docs
  induction docs with
  | nil =>
    intro st st2 vs h
    simp only [embedLoop, Except.ok.injEq, Prod.mk.injEq] at h
    rw [← h.2]
    exact ⟨rfl, fun i hi => absurd hi (by simp)⟩
  | cons doc rest ih =>
    intro st st2 vs h
    simp only [embedLoop] at h
    split at h
    · simp at h
    · rename_i v he
      split at h
      · simp at h
      · rename_i st3 vs3 hr
        simp only [Except.ok.injEq, Prod.mk.injEq] at h
        obtain ⟨-, hvs⟩ := h
        subst hvs
        obtain ⟨hlen, hpt⟩ := ih (updateDim st v) st3 vs3 hr
        refine ⟨by simp [hlen], ?_⟩
        intro i hi
        cases i with
        | zero => simpa using he
        | succ j =>
          have hj : j < rest.length := by simpa using hi
          simpa using hpt j hj

/-- From the fresh globals, a successful embedding loop over a non-empty
document list records the first embedding's length as the dimension and
allocates an empty index of that dimension; nothing else changes. -/
theorem embedLoop_init_state {E : Type} (embed : String → Except E Vec)
    (doc : String × String) (rest : List (String × String))
    (st2 : GlobalState) (vs : List Vec)
    (h : embedLoop embed initState (doc :: rest) = .ok (st2, vs)) :
    ∃ v0, embed doc.2 = .ok v0 ∧
      st2 = ⟨some v0.length, some ⟨v0.length, []⟩, []⟩ := by
  simp only [embedLoop] at h
  split at h
  · simp at h
  · rename_i v he
    split at h
    · simp at h
    · rename_i st3 vs3 hr
      simp only [Except.ok.injEq, Prod.mk.injEq] at h
      refine ⟨v, he, ?_⟩
      rw [← h.1]
      rw [embedLoop_state_const embed v.length rest (updateDim initState v) st3 vs3 rfl hr]
      rfl

/-- A successful `np.vstack` returns its rows unchanged, and they all have
one common width. -/
theorem vstack_ok (rows m : List Vec) (h : vstack rows = some m) :
    m = rows ∧ ∀ r ∈ rows, r.length = (rows.headD []).length := by
  cases rows with
  | nil => simp [vstack] at h
  | cons r rs =>
    simp only [vstack] at h
    split at h
    · rename_i hall
      simp only [Option.some.injEq] at h
      refine ⟨h.symm, ?_⟩
      intro x hx
      rcases List.mem_cons.mp hx with rfl | hx
      · rfl
      · simpa using List.all_eq_true.mp hall x hx
    · simp at h

/-- A successful `index.add` appends the rows, which all carry the index
dimension. -/
theorem add_ok (idx : IndexFlatL2) (rows : List Vec) (idx2 : IndexFlatL2)
    (h : idx.add rows = some idx2) :
    idx2 = ⟨idx.d, idx.vectors ++ rows⟩ ∧ ∀ r ∈ rows, r.length = idx.d := by
  unfold IndexFlatL2.add at h
  split at h
  · rename_i hall
    simp only [Option.some.injEq] at h
    refine ⟨by rw [← h], ?_⟩
    intro x hx
    simpa using List.all_eq_true.mp hall x hx
  · simp at h

/-- Inversion of a successful `load_knowledge_base` from the fresh module
state: the final globals hold an index whose vectors correspond
positionally to the returned (non-empty) document list, each with the
recorded dimension. -/
theorem load_ok_inversion {E : Type} (embed : String → Except E Vec)
    (directory : Option (List (String × String))) (st : GlobalState)
    (docs : List (String × String))
    (h : load_knowledge_base embed directory initState = .ok (st, docs)) :
    ∃ idx, st.index = some idx ∧ st.embedding_dimension = some idx.d ∧
      st.knowledge_base_documents = [] ∧ docs ≠ [] ∧
      idx.vectors.length = docs.length ∧
      (∀ i, i < docs.length →
        embed (docs.getD i ("", "")).2 = .ok (idx.vectors.getD i [])) ∧
      (∀ v ∈ idx.vectors, v.length = idx.d) := by
  cases directory with
  | none => simp [load_knowledge_base] at h
  | some listing =>
    simp only [load_knowledge_base] at h
    split at h
    · simp at h
    · rename_i hemp
      split at h
      · simp at h
      · rename_i st1 embeddings hloop
        split at h
        · simp at h
        · rename_i m hv
          split at h
          · simp at h
          · rename_i idx0 hidx
            split at h
            · simp at h
            · rename_i idx2 hadd
              simp only [Except.ok.injEq, Prod.mk.injEq] at h
              obtain ⟨hst, hdocs⟩ := h
              have hne : listing.filter (fun f => pyEndsWith f.1 ".html") ≠ [] := by
                simpa [List.isEmpty_iff] using hemp
              obtain ⟨doc, rest, hfiles⟩ := List.exists_cons_of_ne_nil hne
              rw [hfiles] at hloop hdocs
              obtain ⟨v0, hv0, hst1⟩ :=
                embedLoop_init_state embed doc rest st1 embeddings hloop
              have hidx0 : idx0 = ⟨v0.length, []⟩ := by
                rw [hst1] at hidx
                exact (Option.some.inj hidx).symm
              obtain ⟨hm, -⟩ := vstack_ok embeddings m hv
              rw [hm] at hadd
              subst hidx0
              obtain ⟨hidx2, hlens⟩ := add_ok ⟨v0.length, []⟩ embeddings idx2 hadd
              obtain ⟨hlen, hpt⟩ :=
                embedLoop_ok_spec embed (doc :: rest) initState st1 embeddings hloop
              refine ⟨idx2, ?_, ?_, ?_, ?_, ?_, ?_, ?_⟩
              · rw [← hst]
              · rw [← hst, hst1, hidx2]
              · rw [← hst, hst1]
              · rw [← hdocs]
                simp
              · rw [hidx2, ← hdocs]
                simpa using hlen
              · intro i hi
                rw [← hdocs] at hi ⊢
                rw [hidx2]
                simpa using hpt i hi
              · intro v hv2
                rw [hidx2] at hv2 ⊢
                simp only [List.nil_append] at hv2
                simpa using hlens v hv2

/-- C5: after every successful build from the fresh module state, the index
stores exactly as many vectors as there are documents in the returned
document list, and for every position i the i-th stored vector is the
embedding of the i-th document's content. -/
theorem c5_positional_correspondence (E : Type) (embed : String → Except E Vec)
    (directory : Option (List (String × String))) (st : GlobalState)
    (docs : List (String × String))
    (h : load_knowledge_base embed directory initState = .ok (st, docs)) :
    ∃ idx, st.index = some idx ∧ idx.ntotal = docs.length ∧
      ∀ i, i < docs.length →
        embed (docs.getD i ("", "")).2 = .ok (idx.vectors.getD i []) := by
  obtain ⟨idx, h1, -, -, -, h5, h6, -⟩ := load_ok_inversion embed directory st docs h
  exact ⟨idx, h1, h5, h6⟩

/-- C5 witness: the concrete two-document build satisfies the positional
correspondence. -/
theorem c5_positional_correspondence_witness :
    ∃ idx, (⟨some 1, some ⟨1, [[1], [2]]⟩, []⟩ : GlobalState).index = some idx ∧
      idx.ntotal = dirCX.length ∧
      ∀ i, i < dirCX.length →
        embedCX (dirCX.getD i ("", "")).2 = .ok (idx.vectors.getD i []) :=
  c5_positional_correspondence Unit embedCX (some dirCX)
    ⟨some 1, some ⟨1, [[1], [2]]⟩, []⟩ dirCX (by decide)

/-- C6: during every successful build from the fresh module state the index
dimension is fixed to the length of the first document's embedding vector,
the index is allocated for that dimension, and every stored vector has
exactly that dimension — so all pairs of inserted vectors have equal
length. -/
theorem c6_dimension_fixed_by_first_embedding (E : Type)
    (embed : String → Except E Vec)
    (directory : Option (List (String × String))) (st : GlobalState)
    (docs : List (String × String))
    (h : load_knowledge_base embed directory initState = .ok (st, docs)) :
    ∃ idx v0, st.index = some idx ∧ st.embedding_dimension = some idx.d ∧
      embed (docs.getD 0 ("", "")).2 = .ok v0 ∧ idx.d = v0.length ∧
      (∀ v ∈ idx.vectors, v.length = idx.d) ∧
      ∀ u ∈ idx.vectors, ∀ v ∈ idx.vectors, u.length = v.length := by
  obtain ⟨idx, h1, h2, -, h4, h5, h6, h7⟩ := load_ok_inversion embed directory st docs h
  have hlen : 0 < docs.length := List.length_pos.mpr h4
  have hvlen : 0 < idx.vectors.length := by omega
  have hmem : idx.vectors.getD 0 [] ∈ idx.vectors := by
    rw [List.getD_eq_getElem?_getD, List.getElem?_eq_getElem hvlen]
    exact List.getElem_mem hvlen
  exact ⟨idx, idx.vectors.getD 0 [], h1, h2, h6 0 hlen, (h7 _ hmem).symm, h7,
    fun u hu v hv => by rw [h7 u hu, h7 v hv]⟩

/-- C6 witness: the concrete two-document build fixes dimension 1 from the
first document's embedding, and both stored vectors have length 1. -/
theorem c6_dimension_fixed_by_first_embedding_witness :
    ∃ idx v0, (⟨some 1, some ⟨1, [[1], [2]]⟩, []⟩ : GlobalState).index = some idx ∧
      (⟨some 1, some ⟨1, [[1], [2]]⟩, []⟩ : GlobalState).embedding_dimension =
        some idx.d ∧
      embedCX (dirCX.getD 0 ("", "")).2 = .ok v0 ∧ idx.d = v0.length ∧
      (∀ v ∈ idx.vectors, v.length = idx.d) ∧
      ∀ u ∈ idx.vectors, ∀ v ∈ idx.vectors, u.length = v.length :=
  c6_dimension_fixed_by_first_embedding Unit embedCX (some dirCX)
    ⟨some 1, some ⟨1, [[1], [2]]⟩, []⟩ dirCX (by decide)

/-- A dimension-matching search succeeds and returns the sorted labels,
truncated to `k` and padded with -1. -/
theorem search_eq (idx : IndexFlatL2) (q : Vec) (k : Nat)
    (hd : q.length = idx.d) :
    idx.search q k = some (((((List.range idx.vectors.length).map
      (fun i => (sqL2 q (idx.vectors.getD i []), (i : Int)))).insertionSort
        distLE).map Prod.snd).take k ++
      List.replicate (k - idx.vectors.length) (-1)) := by
  unfold IndexFlatL2.search
  rw [if_neg (by simp [hd])]

/-- A successful search always returns exactly `k` positions. -/
theorem search_length (idx : IndexFlatL2) (q : Vec) (k : Nat) (ps : List Int)
    (h : idx.search q k = some ps) : ps.length = k := by
  unfold IndexFlatL2.search at h
  split at h
  · simp at h
  · simp only [Option.some.injEq] at h
    subst h
    simp only [List.length_append, List.length_take, List.length_map,
      List.length_insertionSort, List.length_range, List.length_replicate]
    omega

/-- Every pair in the sorted scored list is the distance/label pair of an
in-range stored vector. -/
theorem sorted_pairs_mem (q : Vec) (vecs : List Vec) (x : Int × Int)
    (hx : x ∈ ((List.range vecs.length).map
      (fun i => (sqL2 q (vecs.getD i []), (i : Int)))).insertionSort distLE) :
    0 ≤ x.2 ∧ x.2.toNat < vecs.length ∧ x.1 = sqL2 q (vecs.getD x.2.toNat []) := by
  rw [List.mem_insertionSort] at hx
  obtain ⟨i, hi, rfl⟩ := List.mem_map.mp hx
  rw [List.mem_range] at hi
  refine ⟨by simp, by simpa, by simp⟩

/-- C9 counterexample: over a successfully built four-document index a
non-empty query yields four ranked entries, so the component exposes up to
4 results to its consumer, not up to 3. -/
theorem c9_counterexample :
    module_init embedCX (some dirW4) = .ok stW4 ∧
    (get_knowledge_base embedCX stW4 (some "xx")).1 =
      .ok [("b.html", "xx"), ("a.html", "x"), ("c.html", "xxx"), ("d.html", "xxxx")] ∧
    ¬ ([("b.html", "xx"), ("a.html", "x"), ("c.html", "xxx"),
        ("d.html", "xxxx")].length ≤ 3) :=
  ⟨by decide, by decide, by decide⟩

/-- C9 amended: the component fixes `k = search_k = 4` for the search call,
and exposes up to 4 ranked results to the consumer — the code never
truncates the candidate list to 3. -/
theorem c9_requests_k4_returns_up_to_4 (E : Type) :
    search_k = 4 ∧
    ∀ (embed : String → Except E Vec) (st : GlobalState) (q : Option String)
      (r : List (String × String)),
      (get_knowledge_base embed st q).1 = .ok r → r.length ≤ 4 := by
  refine ⟨rfl, ?_⟩
  intro embed st q r h
  unfold get_knowledge_base at h
  split at h
  · simp only [Except.ok.injEq] at h
    rw [← h]
    simp
  · simp only at h
    split at h
    · simp only [Except.ok.injEq] at h
      rw [← h]
      simp
    · rename_i s
      split at h
      · simp at h
      · rename_i qv hqv
        split at h
        · simp at h
        · rename_i idx hidx
          split at h
          · simp at h
          · rename_i ps hsearch
            have hps : ps.length = search_k := search_length idx qv search_k ps hsearch
            unfold closest_or_fallback at h
            split at h
            · simp at h
            · simp only [Except.ok.injEq] at h
              rw [← h]
              simp
            · rename_i l hlnil hcd
              simp only [Except.ok.injEq] at h
              rw [← h]
              calc l.length ≤ ps.length :=
                    closestDocuments_length_le st.knowledge_base_documents ps l hcd
                _ = 4 := hps

/-- C9 amended witness: the four-document evaluation returns a list of four
entries, within the bound `search_k = 4`. -/
theorem c9_requests_k4_returns_up_to_4_witness :
    search_k = 4 ∧
    [("b.html", "xx"), ("a.html", "x"), ("c.html", "xxx"),
      ("d.html", "xxxx")].length ≤ 4 :=
  ⟨(c9_requests_k4_returns_up_to_4 Unit).1,
   (c9_requests_k4_returns_up_to_4 Unit).2 embedCX stW4 (some "xx")
     [("b.html", "xx"), ("a.html", "x"), ("c.html", "xxx"), ("d.html", "xxxx")]
     (by decide)⟩

/-- When at least `k` vectors are stored, a successful search returns `k`
in-range positions whose stored-vector distances to the query are listed in
ascending order. -/
theorem search_positions_sorted (idx : IndexFlatL2) (qv : Vec) (k : Nat)
    (ps : List Int) (hk : k ≤ idx.vectors.length)
    (h : idx.search qv k = some ps) :
    ps.length = k ∧ (∀ p ∈ ps, 0 ≤ p ∧ p.toNat < idx.vectors.length) ∧
    List.Sorted (· ≤ ·) (ps.map fun p => sqL2 qv (idx.vectors.getD p.toNat [])) := by
  have hd : qv.length = idx.d := by
    unfold IndexFlatL2.search at h
    split at h
    · simp at h
    · rename_i hne
      exact not_not.mp hne
  rw [search_eq idx qv k hd] at h
  simp only [Option.some.injEq, Nat.sub_eq_zero_of_le hk, List.replicate_zero,
    List.append_nil] at h
  subst h
  have hpair : ∀ x ∈ (((List.range idx.vectors.length).map
      (fun i => (sqL2 qv (idx.vectors.getD i []), (i : Int)))).insertionSort
        distLE).take k,
      0 ≤ x.2 ∧ x.2.toNat < idx.vectors.length ∧
        x.1 = sqL2 qv (idx.vectors.getD x.2.toNat []) :=
    fun x hx => sorted_pairs_mem qv idx.vectors x (List.take_subset _ _ hx)
  refine ⟨?_, ?_, ?_⟩
  · simp only [List.length_take, List.length_map, List.length_insertionSort,
      List.length_range]
    omega
  · intro p hp
    rw [← List.map_take] at hp
    obtain ⟨x, hx, rfl⟩ := List.mem_map.mp hp
    exact ⟨(hpair x hx).1, (hpair x hx).2.1⟩
  · rw [← List.map_take, List.map_map]
    have hmapeq : ((((List.range idx.vectors.length).map
        (fun i => (sqL2 qv (idx.vectors.getD i []), (i : Int)))).insertionSort
          distLE).take k).map
            ((fun p => sqL2 qv (idx.vectors.getD p.toNat [])) ∘ Prod.snd) =
        ((((List.range idx.vectors.length).map
        (fun i => (sqL2 qv (idx.vectors.getD i []), (i : Int)))).insertionSort
          distLE).take k).map Prod.fst := by
      refine List.map_congr_left fun x hx => ?_
      obtain ⟨-, -, hfst⟩ := hpair x hx
      simpa [Function.comp] using hfst.symm
    rw [hmapeq]
    have hpw := List.Pairwise.sublist (List.take_sublist k _)
      (List.sorted_insertionSort distLE ((List.range idx.vectors.length).map
        (fun i => (sqL2 qv (idx.vectors.getD i []), (i : Int)))))
    exact hpw.map Prod.fst fun a b hab => hab

/-- When the neighbour loop select a non-empty document list, lines 153-155
pass it through unchanged. -/
theorem closest_or_fallback_ok_nonempty {E : Type} (docs : List (String × String))
    (ps : List Int) (l : List (String × String))
    (hcd : closestDocuments (E := E) docs ps = .ok l) (hne : l ≠ []) :
    closest_or_fallback (E := E) docs ps = .ok l := by
  unfold closest_or_fallback
  rw [hcd]
  cases l with
  | nil => exact absurd rfl hne
  | cons a t => rfl

/-- C8 counterexample: against the successfully built two-document index a
non-empty query returns a list that is NOT ordered by ascending squared L2
distance to the stored vectors — the -1 padding re-appends the last
document, whose distance (1) is smaller than its predecessor's (4). -/
theorem c8_counterexample :
    module_init embedCX (some dirCX) = .ok stCX ∧
    embedCX "xxx" = .ok [3] ∧
    (get_knowledge_base embedCX stCX (some "xxx")).1 =
      .ok [("b.html", "xx"), ("a.html", "x"), ("b.html", "xx"), ("b.html", "xx")] ∧
    ¬ List.Sorted (· ≤ ·)
      ([("b.html", "xx"), ("a.html", "x"), ("b.html", "xx"), ("b.html", "xx")].map
        (distToQuery embedCX [3])) :=
  ⟨by decide, by decide, by decide, by decide⟩

/-- C8 amended: for a non-empty query against a successful build holding at
least 4 documents — so the k = 4 search is not padded with the -1 label —
the returned documents are ordered by ascending squared L2 distance between
the query embedding and each returned document's stored vector. -/
theorem c8_ranked_by_ascending_distance (E : Type) (embed : String → Except E Vec)
    (directory : Option (List (String × String))) (st : GlobalState)
    (s : String) (qv : Vec)
    (hinit : module_init embed directory = .ok st)
    (h4 : 4 ≤ st.knowledge_base_documents.length)
    (hblank : isBlankQuery (some s) = false)
    (hq : embed s = .ok qv)
    (hdim : some qv.length = st.embedding_dimension) :
    ∃ r, (get_knowledge_base embed st (some s)).1 = .ok r ∧ r ≠ [] ∧
      List.Sorted (· ≤ ·) (r.map (distToQuery embed qv)) := by
  unfold module_init at hinit
  split at hinit
  · simp at hinit
  · rename_i st0 docs0 hload
    simp only [Except.ok.injEq] at hinit
    obtain ⟨idx, hidx, hdim0, -, -, hnv, hpt, -⟩ :=
      load_ok_inversion embed directory st0 docs0 hload
    have hidxst : st.index = some idx := by
      rw [← hinit]
      exact hidx
    have hkbd : st.knowledge_base_documents = docs0 := by rw [← hinit]
    have hdim1 : st.embedding_dimension = some idx.d := by
      rw [← hinit]
      exact hdim0
    have hq_dim : qv.length = idx.d := by
      rw [hdim1] at hdim
      exact Option.some.inj hdim
    have h4n : search_k ≤ idx.vectors.length := by
      rw [hnv, ← hkbd]
      exact h4
    obtain ⟨PS, hsearch⟩ : ∃ ps, idx.search qv search_k = some ps :=
      ⟨_, search_eq idx qv search_k hq_dim⟩
    obtain ⟨hlen, hin, hsortd⟩ :=
      search_positions_sorted idx qv search_k PS h4n hsearch
    have hin2 : ∀ p ∈ PS, 0 ≤ p ∧ p.toNat < st.knowledge_base_documents.length := by
      intro p hp
      obtain ⟨h0, hlt⟩ := hin p hp
      refine ⟨h0, ?_⟩
      rw [hkbd]
      omega
    have hcd := closestDocuments_all_in (E := E) st.knowledge_base_documents PS hin2
    have hrne : PS.map (fun p => st.knowledge_base_documents.getD p.toNat ("", "")) ≠ [] := by
      intro hc
      have hc0 := congrArg List.length hc
      rw [List.length_map, hlen] at hc0
      simp [search_k] at hc0
    have hcof := closest_or_fallback_ok_nonempty st.knowledge_base_documents PS _ hcd hrne
    refine ⟨PS.map (fun p => st.knowledge_base_documents.getD p.toNat ("", "")),
      ?_, hrne, ?_⟩
    · unfold get_knowledge_base
      rw [if_neg (by simp [hblank])]
      simp only [hq, hidxst, hsearch]
      exact hcof
    · rw [List.map_map]
      have hco : PS.map ((distToQuery embed qv) ∘
          (fun p => st.knowledge_base_documents.getD p.toNat ("", ""))) =
          PS.map fun p => sqL2 qv (idx.vectors.getD p.toNat []) := by
        refine List.map_congr_left fun p hp => ?_
        obtain ⟨h0, hlt⟩ := hin p hp
        have hdoc : embed ((st.knowledge_base_documents.getD p.toNat ("", "")).2) =
            .ok (idx.vectors.getD p.toNat []) := by
          rw [hkbd]
          exact hpt p.toNat (by omega)
        simp only [Function.comp]
        unfold distToQuery
        rw [hdoc]
      rw [hco]
      exact hsortd

/-- C8 amended witness: the four-document build answers the query "xx" with
all four documents in ascending distance order. -/
theorem c8_ranked_by_ascending_distance_witness :
    ∃ r, (get_knowledge_base embedCX stW4 (some "xx")).1 = .ok r ∧ r ≠ [] ∧
      List.Sorted (· ≤ ·) (r.map (distToQuery embedCX [2])) :=
  c8_ranked_by_ascending_distance Unit embedCX (some dirW4) stW4 "xx" [2]
    (by decide) (by decide) (by decide) (by decide) (by decide)
